import Mathlib

/-!
Verification of the Vulkan bootstrap pipeline (rust-vulkan-guide).

The repository contains three progressively larger variants of the same
pipeline (instance only; instance+device+queue; instance+device+queue+
command buffer).  The full variant is
`src/initialization/command-buffer/guide/src/main.rs`; we embed it as a
pure function from an enumerated physical-device list and a
fault-injection record (which driver call fails) to the trace of
successful driver calls plus the result.  The two smaller variants are
embedded where a claim mentions them (their `destroy`).
-/

/-- `vk::PhysicalDeviceType` values relevant to the code.  The Rust match
ranks `DISCRETE_GPU => 0`, `INTEGRATED_GPU => 1`, `_ => 3`. -/
inductive PhysicalDeviceType where
  | other
  | integratedGpu
  | discreteGpu
  | virtualGpu
  | cpu
deriving DecidableEq, Repr

/-- One queue family descriptor: `vk::QueueFamilyProperties`.  The flags
are the `vk::QueueFlags` bitmask (GRAPHICS = 1, COMPUTE = 2,
TRANSFER = 4, ...). -/
structure QueueFamilyProperties where
  queueFlags : Nat
  queueCount : Nat
deriving DecidableEq, Repr

/-- A `PhysicalDeviceDescriptor`: an opaque handle together with the
properties the code queries (`get_physical_device_properties` gives the
device type, `get_physical_device_queue_family_properties` gives the
family list). -/
structure PhysicalDevice where
  handle : Nat
  deviceType : PhysicalDeviceType
  queueFamilies : List QueueFamilyProperties
deriving DecidableEq, Repr

/-- The ranking key of the `min_by_key` closure in `Engine::new`:
`DISCRETE_GPU => 0, INTEGRATED_GPU => 1, _ => 3`. -/
def rankDevice : PhysicalDeviceType → Nat
  | .discreteGpu => 0
  | .integratedGpu => 1
  | _ => 3

/-- One comparison step of Rust's `Iterator::min_by_key` fold: the
accumulator is replaced only when the new element's key is strictly
smaller, so among equal minima the earlier element is kept. -/
def mbkStep (key : α → Nat) (m y : α) : α := if key y < key m then y else m

/-- Rust's `Iterator::min_by_key`: the element with the least key; among
elements of equal least key, the first one encountered is kept. -/
def minByKey (key : α → Nat) : List α → Option α
  | [] => none
  | x :: xs => some (xs.foldl (mbkStep key) x)

/-- Rust's `Iterator::position`: index of the first element satisfying
the predicate. -/
def position (p : α → Bool) : List α → Option Nat
  | [] => none
  | x :: xs => if p x then some 0 else (position p xs).map (· + 1)

/-- `vk::QueueFlags::GRAPHICS | vk::QueueFlags::COMPUTE |
vk::QueueFlags::TRANSFER` = 1 ||| 2 ||| 4. -/
def requiredQueueFlags : Nat := 7

/-- `QueueFlags::contains`: all required bits are set in `flags`. -/
def queueFlagsContains (flags req : Nat) : Bool := flags.land req == req

/-- The queue-family predicate of `Engine::new`:
`properties.queue_flags.contains(GRAPHICS | COMPUTE | TRANSFER)`. -/
def familyQualifies (fam : QueueFamilyProperties) : Bool :=
  queueFlagsContains fam.queueFlags requiredQueueFlags

/-- The device-ranking step: `enumerate_physical_devices()?.into_iter()
.min_by_key(|d| rank)`. -/
def selectPhysicalDevice (devs : List PhysicalDevice) : Option PhysicalDevice :=
  minByKey (fun d => rankDevice d.deviceType) devs

/-- Errors surfaced by the pipeline (`anyhow::Result`).  `load` failures
come from `ash::Entry::load()`, Vulkan calls that return an error
`vk::Result` are propagated by `?` as `vkError`, and the two
`ok_or(anyhow::anyhow!(..))` sites produce message errors. -/
inductive EngineError where
  | loadError
  | vkError (call : String)
  | anyhowMsg (msg : String)
deriving DecidableEq, Repr

/-- The chosen physical device plus the chosen queue family index. -/
structure QueueFamilySelection where
  physicalDevice : PhysicalDevice
  queueFamily : Nat
deriving DecidableEq, Repr

/-- The selection portion of `Engine::new` (lines 27-44): rank the
enumerated devices, `ok_or("No physical devices available")`, then take
the `position` of the first family containing GRAPHICS|COMPUTE|TRANSFER,
`ok_or("No main queue available")`. -/
def selectDeviceAndFamily (devs : List PhysicalDevice) :
    Except EngineError QueueFamilySelection :=
  match selectPhysicalDevice devs with
  | none => .error (.anyhowMsg "No physical devices available")
  | some pd =>
    match position familyQualifies pd.queueFamilies with
    | none => .error (.anyhowMsg "No main queue available")
    | some qf => .ok ⟨pd, qf⟩

/-- One successful driver call, as observed by a mock driver.  Creation
calls carry the arguments the code passes: `createDevice` carries the
`queue_create_infos` list (family index, priorities), `queueSubmit2`
carries the wait/signal semaphore counts, the command-buffer count and
whether the fence argument is `Fence::null()`. -/
inductive DriverCall where
  | load
  | createInstance (apiVersionMajorMinor : Nat × Nat)
  | enumerateDevices
  | createDevice (queueCreateInfos : List (Nat × List ℚ))
  | getDeviceQueue (family idx : Nat)
  | createCommandPool (family : Nat)
  | allocateCommandBuffers (count : Nat)
  | beginCommandBuffer (oneTimeSubmit : Bool)
  | endCommandBuffer
  | queueSubmit2 (waitSem signalSem cmdBufs : Nat) (fenceNull : Bool)
  | queueWaitIdle
  | destroyCommandPool
  | destroyDevice
  | destroyInstance
deriving DecidableEq, Repr

/-- Which driver calls are resource creations (the spec's
creation-order property talks about instance, device, pool, buffer). -/
def isCreation : DriverCall → Bool
  | .createInstance _ => true
  | .createDevice _ => true
  | .createCommandPool _ => true
  | .allocateCommandBuffers _ => true
  | _ => false

/-- Which driver calls are resource destructions. -/
def isDestruction : DriverCall → Bool
  | .destroyCommandPool => true
  | .destroyDevice => true
  | .destroyInstance => true
  | _ => false

/-- Fault injection: which fallible driver call is made to fail.  A
`true` flag makes that call return an error (so it creates nothing and
the corresponding `?` propagates). -/
structure Faults where
  loadFails : Bool := false
  createInstanceFails : Bool := false
  enumerateFails : Bool := false
  createDeviceFails : Bool := false
  createPoolFails : Bool := false
  allocFails : Bool := false
  beginFails : Bool := false
  endFails : Bool := false
  submitFails : Bool := false
  waitIdleFails : Bool := false
deriving DecidableEq, Repr

/-- The fields of `Engine` the embedding tracks (the native handles are
opaque; the selection data is what downstream calls consume). -/
structure Engine where
  physicalDevice : PhysicalDevice
  queueFamily : Nat
  queueIndex : Nat
deriving DecidableEq, Repr

/-- `Engine::new` of the command-buffer variant: load the entry points,
create the instance (API version 1.4), enumerate and select a device
and family, create the logical device with exactly one
`DeviceQueueCreateInfo` for the selected family at priorities `[1.0]`,
get the queue at index 0, create a command pool for that family, and
allocate one command buffer.  Returns the trace of successful driver
calls and the result; any failure propagates immediately via `?`
(no cleanup happens in this function). -/
def engineNew (devs : List PhysicalDevice) (f : Faults) :
    List DriverCall × Except EngineError Engine :=
  if f.loadFails then ([], .error .loadError) else
  if f.createInstanceFails then
    ([.load], .error (.vkError "vkCreateInstance")) else
  if f.enumerateFails then
    ([.load, .createInstance (1, 4)],
     .error (.vkError "vkEnumeratePhysicalDevices")) else
  match selectDeviceAndFamily devs with
  | .error e => ([.load, .createInstance (1, 4), .enumerateDevices], .error e)
  | .ok sel =>
    if f.createDeviceFails then
      ([.load, .createInstance (1, 4), .enumerateDevices],
       .error (.vkError "vkCreateDevice")) else
    if f.createPoolFails then
      ([.load, .createInstance (1, 4), .enumerateDevices,
        .createDevice [(sel.queueFamily, [1])],
        .getDeviceQueue sel.queueFamily 0],
       .error (.vkError "vkCreateCommandPool")) else
    if f.allocFails then
      ([.load, .createInstance (1, 4), .enumerateDevices,
        .createDevice [(sel.queueFamily, [1])],
        .getDeviceQueue sel.queueFamily 0,
        .createCommandPool sel.queueFamily],
       .error (.vkError "vkAllocateCommandBuffers")) else
    ([.load, .createInstance (1, 4), .enumerateDevices,
      .createDevice [(sel.queueFamily, [1])],
      .getDeviceQueue sel.queueFamily 0,
      .createCommandPool sel.queueFamily,
      .allocateCommandBuffers 1],
     .ok ⟨sel.physicalDevice, sel.queueFamily, 0⟩)

/-- Command-buffer states of the data model. -/
inductive BufferState where
  | initial
  | recording
  | executable
  | pending
  | invalid
deriving DecidableEq, Repr

/-- Mock driver state observed by `Engine::run`: the state of the single
command buffer and whether the queue is idle (a submission makes it
busy; `queue_wait_idle` blocks until it is idle again and on return the
idle flag is observed true). -/
structure RunState where
  bufferState : BufferState
  queueIdle : Bool
deriving DecidableEq, Repr

/-- `Engine::run`: `begin_command_buffer` with `ONE_TIME_SUBMIT`
(initial→recording), the empty `// Commands here` record step,
`end_command_buffer` (recording→executable), `queue_submit2` with one
command-buffer info, no wait/signal semaphores and `Fence::null()`
(executable→pending, queue busy), then `queue_wait_idle`, which returns
only once the queue is idle. -/
def engineRun (f : Faults) (s0 : RunState) :
    List DriverCall × Except EngineError Unit × RunState :=
  if f.beginFails then ([], .error (.vkError "vkBeginCommandBuffer"), s0) else
  if f.endFails then
    ([.beginCommandBuffer true], .error (.vkError "vkEndCommandBuffer"),
     { s0 with bufferState := .recording }) else
  if f.submitFails then
    ([.beginCommandBuffer true, .endCommandBuffer],
     .error (.vkError "vkQueueSubmit2"),
     { s0 with bufferState := .executable }) else
  if f.waitIdleFails then
    ([.beginCommandBuffer true, .endCommandBuffer, .queueSubmit2 0 0 1 true],
     .error (.vkError "vkQueueWaitIdle"),
     ⟨.pending, false⟩) else
  ([.beginCommandBuffer true, .endCommandBuffer, .queueSubmit2 0 0 1 true,
    .queueWaitIdle],
   .ok (), ⟨.pending, true⟩)

/-- `Engine::destroy` of the command-buffer variant: destroy the command
pool, then the device, then the instance, and return `Ok(())`.  None of
the destruction entry points can fail. -/
def engineDestroy (_e : Engine) : List DriverCall × Except EngineError Unit :=
  ([.destroyCommandPool, .destroyDevice, .destroyInstance], .ok ())

/-- The `Engine` of the device-and-queue variant (no command pool). -/
structure EngineDQ where
  physicalDevice : PhysicalDevice
  queueFamily : Nat
deriving DecidableEq, Repr

/-- `Engine::destroy` of the device-and-queue variant: destroy the
device, then the instance; returns `Ok(())`. -/
def engineDQDestroy (_e : EngineDQ) : List DriverCall × Except EngineError Unit :=
  ([.destroyDevice, .destroyInstance], .ok ())

/-- The `Context` of the instance-only variant (entry + instance). -/
structure Context where
  instanceLive : Bool
deriving DecidableEq, Repr

/-- `Context::destroy` of the instance-only variant: destroy the
instance; returns `Ok(())`. -/
def contextDestroy (_c : Context) : List DriverCall × Except EngineError Unit :=
  ([.destroyInstance], .ok ())

/-- `fn main()` of the command-buffer variant:
`Engine::new()?; engine.run()?; engine.destroy()?`.  The `?` operator
returns the error immediately, so `destroy` runs only when both `new`
and `run` succeeded. -/
def mainPipeline (devs : List PhysicalDevice) (f : Faults) :
    List DriverCall × Except EngineError Unit :=
  match engineNew devs f with
  | (t, .error e) => (t, .error e)
  | (t, .ok eng) =>
    match engineRun f ⟨.initial, true⟩ with
    | (t2, .error e, _) => (t ++ t2, .error e)
    | (t2, .ok _, _) =>
      let (t3, r) := engineDestroy eng
      (t ++ t2 ++ t3, r)

/-! ### Properties of the `min_by_key` fold -/

theorem mbkStep_key_le_left (key : α → Nat) (m y : α) :
    key (mbkStep key m y) ≤ key m := by
  unfold mbkStep; split <;> omega

theorem mbkStep_key_le_right (key : α → Nat) (m y : α) :
    key (mbkStep key m y) ≤ key y := by
  unfold mbkStep; split <;> omega

theorem foldl_mbk_key_le (key : α → Nat) :
    ∀ (xs : List α) (x : α), key (xs.foldl (mbkStep key) x) ≤ key x := by
  intro xs
  induction xs with
  | nil => intro x; exact le_refl _
  | cons y ys ih =>
    intro x
    calc key ((y :: ys).foldl (mbkStep key) x)
        = key (ys.foldl (mbkStep key) (mbkStep key x y)) := rfl
      _ ≤ key (mbkStep key x y) := ih _
      _ ≤ key x := mbkStep_key_le_left key x y

theorem foldl_mbk_min (key : α → Nat) :
    ∀ (xs : List α) (x y : α), y ∈ x :: xs →
      key (xs.foldl (mbkStep key) x) ≤ key y := by
  intro xs
  induction xs with
  | nil =>
    intro x y hy
    rcases List.mem_cons.mp hy with h | h
    · rw [h]; exact le_refl _
    · exact absurd h (List.not_mem_nil y)
  | cons z zs ih =>
    intro x y hy
    have hfold : (z :: zs).foldl (mbkStep key) x
        = zs.foldl (mbkStep key) (mbkStep key x z) := rfl
    rcases List.mem_cons.mp hy with h | h
    · rw [h, hfold]
      exact le_trans (foldl_mbk_key_le key zs (mbkStep key x z))
        (mbkStep_key_le_left key x z)
    · rcases List.mem_cons.mp h with h2 | h2
      · rw [h2, hfold]
        exact le_trans (foldl_mbk_key_le key zs (mbkStep key x z))
          (mbkStep_key_le_right key x z)
      · rw [hfold]
        exact ih (mbkStep key x z) y (List.mem_cons_of_mem _ h2)

theorem foldl_mbk_decomp (key : α → Nat) :
    ∀ (xs : List α) (x : α), ∃ l₁ l₂,
      x :: xs = l₁ ++ (xs.foldl (mbkStep key) x) :: l₂ ∧
      ∀ y ∈ l₁, key (xs.foldl (mbkStep key) x) < key y := by
  intro xs
  induction xs with
  | nil =>
    intro x
    exact ⟨[], [], rfl, by intro y hy; exact absurd hy (List.not_mem_nil y)⟩
  | cons z zs ih =>
    intro x
    show ∃ l₁ l₂,
      x :: z :: zs = l₁ ++ (zs.foldl (mbkStep key) (mbkStep key x z)) :: l₂ ∧
      ∀ y ∈ l₁, key (zs.foldl (mbkStep key) (mbkStep key x z)) < key y
    by_cases h : key z < key x
    · have hstep : mbkStep key x z = z := if_pos h
      rw [hstep]
      obtain ⟨l₁, l₂, heq, hlt⟩ := ih z
      refine ⟨x :: l₁, l₂, ?_, ?_⟩
      · rw [List.cons_append, ← heq]
      · intro y hy
        rcases List.mem_cons.mp hy with h2 | h2
        · rw [h2]
          have h3 : key (zs.foldl (mbkStep key) z) ≤ key z :=
            foldl_mbk_key_le key zs z
          omega
        · exact hlt y h2
    · have hstep : mbkStep key x z = x := if_neg h
      rw [hstep]
      obtain ⟨l₁, l₂, heq, hlt⟩ := ih x
      cases l₁ with
      | nil =>
        simp only [List.nil_append] at heq
        injection heq with h1 h2
        refine ⟨[], z :: zs, ?_, ?_⟩
        · rw [← h1]; rfl
        · intro y hy; exact absurd hy (List.not_mem_nil y)
      | cons a l₁' =>
        rw [List.cons_append] at heq
        injection heq with h1 h2
        have hr_lt_x : key (zs.foldl (mbkStep key) x) < key x := by
          have := hlt a (List.mem_cons_self a l₁')
          rwa [← h1] at this
        refine ⟨x :: z :: l₁', l₂, ?_, ?_⟩
        · rw [List.cons_append, List.cons_append, ← h2]
        · intro y hy
          rcases List.mem_cons.mp hy with h3 | h3
          · rw [h3]; exact hr_lt_x
          · rcases List.mem_cons.mp h3 with h4 | h4
            · rw [h4]; omega
            · exact hlt y (List.mem_cons_of_mem _ h4)

/-- A nonempty device list: `min_by_key` selects a device of minimum
rank, and every device enumerated before it has strictly greater rank,
i.e. ties are broken in favour of the first-enumerated device. -/
theorem selectPhysicalDevice_spec (devs : List PhysicalDevice) (h : devs ≠ []) :
    ∃ d l₁ l₂, selectPhysicalDevice devs = some d ∧
      devs = l₁ ++ d :: l₂ ∧
      (∀ e ∈ devs, rankDevice d.deviceType ≤ rankDevice e.deviceType) ∧
      (∀ e ∈ l₁, rankDevice d.deviceType < rankDevice e.deviceType) := by
  match devs with
  | [] => exact absurd rfl h
  | x :: xs =>
    obtain ⟨l₁, l₂, heq, hlt⟩ :=
      foldl_mbk_decomp (fun d => rankDevice d.deviceType) xs x
    refine ⟨xs.foldl (mbkStep fun d => rankDevice d.deviceType) x, l₁, l₂,
      rfl, heq, ?_, hlt⟩
    intro e he
    exact foldl_mbk_min (fun d => rankDevice d.deviceType) xs x e he

theorem selectPhysicalDevice_eq_none (devs : List PhysicalDevice) :
    selectPhysicalDevice devs = none ↔ devs = [] := by
  cases devs <;> simp [selectPhysicalDevice, minByKey]

/-! ### Properties of `Iterator::position` and the selection step -/

theorem position_eq_none (p : α → Bool) :
    ∀ l : List α, position p l = none ↔ ∀ x ∈ l, p x = false := by
  intro l
  induction l with
  | nil => simp [position]
  | cons a as ih =>
    cases hpa : p a with
    | true => simp [position, hpa]
    | false => simp [position, hpa, Option.map_eq_none', ih]

theorem position_eq_some (p : α → Bool) :
    ∀ (l : List α) (n : Nat), position p l = some n →
      ∃ x, l[n]? = some x ∧ p x = true ∧
        ∀ y ∈ l.take n, p y = false := by
  intro l
  induction l with
  | nil => intro n h; simp [position] at h
  | cons a as ih =>
    intro n h
    cases hpa : p a with
    | true =>
      rw [position, if_pos hpa] at h
      have hn : n = 0 := by
        have := Option.some.inj h
        omega
      subst hn
      exact ⟨a, by simp, hpa, by simp⟩
    | false =>
      rw [position, if_neg (by simp [hpa])] at h
      cases hm : position p as with
      | none => rw [hm] at h; simp at h
      | some m =>
        rw [hm] at h
        simp only [Option.map_some'] at h
        have hn : n = m + 1 := by
          have := Option.some.inj h
          omega
        subst hn
        obtain ⟨x, hx, hpx, hall⟩ := ih m hm
        refine ⟨x, by simpa using hx, hpx, ?_⟩
        intro y hy
        rw [List.take_succ_cons] at hy
        rcases List.mem_cons.mp hy with h2 | h2
        · rw [h2]; exact hpa
        · exact hall y h2

theorem selectDeviceAndFamily_of_none (devs : List PhysicalDevice)
    (h : selectPhysicalDevice devs = none) :
    selectDeviceAndFamily devs
      = .error (.anyhowMsg "No physical devices available") := by
  unfold selectDeviceAndFamily
  rw [h]

theorem selectDeviceAndFamily_of_noFamily (devs : List PhysicalDevice)
    (pd : PhysicalDevice) (h1 : selectPhysicalDevice devs = some pd)
    (h2 : position familyQualifies pd.queueFamilies = none) :
    selectDeviceAndFamily devs
      = .error (.anyhowMsg "No main queue available") := by
  unfold selectDeviceAndFamily
  rw [h1]
  show (match position familyQualifies pd.queueFamilies with
    | none => Except.error (EngineError.anyhowMsg "No main queue available")
    | some qf => Except.ok (⟨pd, qf⟩ : QueueFamilySelection)) = _
  rw [h2]

theorem selectDeviceAndFamily_of_some (devs : List PhysicalDevice)
    (pd : PhysicalDevice) (qf : Nat)
    (h1 : selectPhysicalDevice devs = some pd)
    (h2 : position familyQualifies pd.queueFamilies = some qf) :
    selectDeviceAndFamily devs = .ok ⟨pd, qf⟩ := by
  unfold selectDeviceAndFamily
  rw [h1]
  show (match position familyQualifies pd.queueFamilies with
    | none => Except.error (EngineError.anyhowMsg "No main queue available")
    | some qf => Except.ok (⟨pd, qf⟩ : QueueFamilySelection)) = _
  rw [h2]

theorem selectDeviceAndFamily_ok (devs : List PhysicalDevice)
    (sel : QueueFamilySelection) (h : selectDeviceAndFamily devs = .ok sel) :
    selectPhysicalDevice devs = some sel.physicalDevice ∧
    position familyQualifies sel.physicalDevice.queueFamilies
      = some sel.queueFamily := by
  cases hs : selectPhysicalDevice devs with
  | none =>
    rw [selectDeviceAndFamily_of_none devs hs] at h
    exact absurd h (by simp)
  | some pd =>
    cases hp : position familyQualifies pd.queueFamilies with
    | none =>
      rw [selectDeviceAndFamily_of_noFamily devs pd hs hp] at h
      exact absurd h (by simp)
    | some qf =>
      rw [selectDeviceAndFamily_of_some devs pd qf hs hp] at h
      have hsel : (⟨pd, qf⟩ : QueueFamilySelection) = sel := Except.ok.inj h
      rw [← hsel]
      exact ⟨rfl, hp⟩

theorem selectDeviceAndFamily_error (devs : List PhysicalDevice) :
    ((∃ e, selectDeviceAndFamily devs = .error e) ↔
      devs = [] ∨ ∃ d, selectPhysicalDevice devs = some d ∧
        ∀ fam ∈ d.queueFamilies, familyQualifies fam = false) ∧
    ∀ e, selectDeviceAndFamily devs = .error e →
      (e = .anyhowMsg "No physical devices available" ∨
       e = .anyhowMsg "No main queue available") := by
  cases hs : selectPhysicalDevice devs with
  | none =>
    have heq := selectDeviceAndFamily_of_none devs hs
    refine ⟨⟨fun _ => Or.inl ((selectPhysicalDevice_eq_none devs).mp hs),
      fun _ => ⟨_, heq⟩⟩, ?_⟩
    intro e he
    rw [heq] at he
    exact Or.inl (Except.error.inj he).symm
  | some pd =>
    cases hp : position familyQualifies pd.queueFamilies with
    | none =>
      have heq := selectDeviceAndFamily_of_noFamily devs pd hs hp
      refine ⟨⟨fun _ =>
        Or.inr ⟨pd, rfl, (position_eq_none familyQualifies _).mp hp⟩,
        fun _ => ⟨_, heq⟩⟩, ?_⟩
      intro e he
      rw [heq] at he
      exact Or.inr (Except.error.inj he).symm
    | some qf =>
      have heq := selectDeviceAndFamily_of_some devs pd qf hs hp
      refine ⟨⟨fun hex => ?_, fun hcond => ?_⟩, ?_⟩
      · obtain ⟨e, he⟩ := hex
        rw [heq] at he
        exact absurd he (by simp)
      · exfalso
        rcases hcond with hnil | ⟨d, hd, hfam⟩
        · rw [hnil] at hs
          exact absurd hs (by simp [selectPhysicalDevice, minByKey])
        · have hdp : pd = d := Option.some.inj hd
          rw [← hdp] at hfam
          have hnone := (position_eq_none familyQualifies pd.queueFamilies).mpr hfam
          rw [hp] at hnone
          exact Option.noConfusion hnone
      · intro e he
        rw [heq] at he
        exact absurd he (by simp)

/-! ### Properties of `Engine::new`, `Engine::run` and `fn main` -/

theorem engineNew_ok (devs : List PhysicalDevice) (f : Faults)
    (t : List DriverCall) (eng : Engine)
    (h : engineNew devs f = (t, .ok eng)) :
    selectDeviceAndFamily devs = .ok ⟨eng.physicalDevice, eng.queueFamily⟩ ∧
    eng.queueIndex = 0 ∧
    t = [.load, .createInstance (1, 4), .enumerateDevices,
         .createDevice [(eng.queueFamily, [1])],
         .getDeviceQueue eng.queueFamily 0,
         .createCommandPool eng.queueFamily,
         .allocateCommandBuffers 1] := by
  unfold engineNew at h
  by_cases h1 : f.loadFails
  · rw [if_pos h1] at h; simp at h
  rw [if_neg h1] at h
  by_cases h2 : f.createInstanceFails
  · rw [if_pos h2] at h; simp at h
  rw [if_neg h2] at h
  by_cases h3 : f.enumerateFails
  · rw [if_pos h3] at h; simp at h
  rw [if_neg h3] at h
  cases hsel : selectDeviceAndFamily devs with
  | error e => simp only [hsel] at h; simp at h
  | ok sel =>
    simp only [hsel] at h
    by_cases h4 : f.createDeviceFails
    · rw [if_pos h4] at h; simp at h
    rw [if_neg h4] at h
    by_cases h5 : f.createPoolFails
    · rw [if_pos h5] at h; simp at h
    rw [if_neg h5] at h
    by_cases h6 : f.allocFails
    · rw [if_pos h6] at h; simp at h
    rw [if_neg h6] at h
    simp only [Prod.mk.injEq, Except.ok.injEq] at h
    obtain ⟨ht, he⟩ := h
    rw [← he]
    exact ⟨rfl, rfl, ht.symm⟩

theorem engineNew_error (devs : List PhysicalDevice) (f : Faults)
    (t : List DriverCall) (e : EngineError)
    (h : engineNew devs f = (t, .error e)) :
    t.filter isDestruction = [] ∧
    ∃ qf, t.filter isCreation <+:
      [.createInstance (1, 4), .createDevice [(qf, [1])],
       .createCommandPool qf, .allocateCommandBuffers 1] := by
  unfold engineNew at h
  by_cases h1 : f.loadFails
  · rw [if_pos h1] at h
    simp only [Prod.mk.injEq] at h
    rw [← h.1]
    exact ⟨rfl, 0, [.createInstance (1, 4), .createDevice [(0, [1])],
      .createCommandPool 0, .allocateCommandBuffers 1], rfl⟩
  rw [if_neg h1] at h
  by_cases h2 : f.createInstanceFails
  · rw [if_pos h2] at h
    simp only [Prod.mk.injEq] at h
    rw [← h.1]
    exact ⟨rfl, 0, [.createInstance (1, 4), .createDevice [(0, [1])],
      .createCommandPool 0, .allocateCommandBuffers 1], rfl⟩
  rw [if_neg h2] at h
  by_cases h3 : f.enumerateFails
  · rw [if_pos h3] at h
    simp only [Prod.mk.injEq] at h
    rw [← h.1]
    exact ⟨rfl, 0, [.createDevice [(0, [1])],
      .createCommandPool 0, .allocateCommandBuffers 1], rfl⟩
  rw [if_neg h3] at h
  cases hsel : selectDeviceAndFamily devs with
  | error e2 =>
    simp only [hsel] at h
    simp only [Prod.mk.injEq] at h
    rw [← h.1]
    exact ⟨rfl, 0, [.createDevice [(0, [1])],
      .createCommandPool 0, .allocateCommandBuffers 1], rfl⟩
  | ok sel =>
    simp only [hsel] at h
    by_cases h4 : f.createDeviceFails
    · rw [if_pos h4] at h
      simp only [Prod.mk.injEq] at h
      rw [← h.1]
      exact ⟨rfl, 0, [.createDevice [(0, [1])],
        .createCommandPool 0, .allocateCommandBuffers 1], rfl⟩
    rw [if_neg h4] at h
    by_cases h5 : f.createPoolFails
    · rw [if_pos h5] at h
      simp only [Prod.mk.injEq] at h
      rw [← h.1]
      exact ⟨rfl, sel.queueFamily,
        [.createCommandPool sel.queueFamily, .allocateCommandBuffers 1], rfl⟩
    rw [if_neg h5] at h
    by_cases h6 : f.allocFails
    · rw [if_pos h6] at h
      simp only [Prod.mk.injEq] at h
      rw [← h.1]
      exact ⟨rfl, sel.queueFamily, [.allocateCommandBuffers 1], rfl⟩
    rw [if_neg h6] at h
    simp at h

theorem engineRun_ok (f : Faults) (s0 : RunState) (t : List DriverCall)
    (u : Unit) (s : RunState) (h : engineRun f s0 = (t, .ok u, s)) :
    t = [.beginCommandBuffer true, .endCommandBuffer,
         .queueSubmit2 0 0 1 true, .queueWaitIdle] ∧
    s = ⟨.pending, true⟩ := by
  unfold engineRun at h
  by_cases h1 : f.beginFails
  · rw [if_pos h1] at h; simp at h
  rw [if_neg h1] at h
  by_cases h2 : f.endFails
  · rw [if_pos h2] at h; simp at h
  rw [if_neg h2] at h
  by_cases h3 : f.submitFails
  · rw [if_pos h3] at h; simp at h
  rw [if_neg h3] at h
  by_cases h4 : f.waitIdleFails
  · rw [if_pos h4] at h; simp at h
  rw [if_neg h4] at h
  simp only [Prod.mk.injEq] at h
  exact ⟨h.1.symm, h.2.2.symm⟩

theorem engineRun_no_faults (f : Faults) (s0 : RunState)
    (h1 : f.beginFails = false) (h2 : f.endFails = false)
    (h3 : f.submitFails = false) (h4 : f.waitIdleFails = false) :
    engineRun f s0 =
      ([.beginCommandBuffer true, .endCommandBuffer,
        .queueSubmit2 0 0 1 true, .queueWaitIdle],
       .ok (), ⟨.pending, true⟩) := by
  unfold engineRun
  rw [h1, h2, h3, h4]
  simp

theorem engineRun_filters (f : Faults) (s0 : RunState) :
    (engineRun f s0).1.filter isCreation = [] ∧
    (engineRun f s0).1.filter isDestruction = [] := by
  unfold engineRun
  split
  · exact ⟨rfl, rfl⟩
  split
  · exact ⟨rfl, rfl⟩
  split
  · exact ⟨rfl, rfl⟩
  split
  · exact ⟨rfl, rfl⟩
  exact ⟨rfl, rfl⟩

theorem mainPipeline_of_new_error (devs : List PhysicalDevice) (f : Faults)
    (tn : List DriverCall) (e : EngineError)
    (hn : engineNew devs f = (tn, .error e)) :
    mainPipeline devs f = (tn, .error e) := by
  unfold mainPipeline
  rw [hn]

theorem mainPipeline_of_run_error (devs : List PhysicalDevice) (f : Faults)
    (tn t2 : List DriverCall) (eng : Engine) (e : EngineError) (s : RunState)
    (hn : engineNew devs f = (tn, .ok eng))
    (hr : engineRun f ⟨.initial, true⟩ = (t2, .error e, s)) :
    mainPipeline devs f = (tn ++ t2, .error e) := by
  unfold mainPipeline
  rw [hn, hr]

theorem mainPipeline_of_ok (devs : List PhysicalDevice) (f : Faults)
    (tn t2 : List DriverCall) (eng : Engine) (s : RunState)
    (hn : engineNew devs f = (tn, .ok eng))
    (hr : engineRun f ⟨.initial, true⟩ = (t2, .ok (), s)) :
    mainPipeline devs f =
      (tn ++ t2 ++ [.destroyCommandPool, .destroyDevice, .destroyInstance],
       .ok ()) := by
  unfold mainPipeline
  rw [hn, hr]
  rfl

theorem mainPipeline_ok_inv (devs : List PhysicalDevice) (f : Faults)
    (t : List DriverCall) (h : mainPipeline devs f = (t, .ok ())) :
    ∃ tn eng t2 s, engineNew devs f = (tn, .ok eng) ∧
      engineRun f ⟨.initial, true⟩ = (t2, .ok (), s) ∧
      t = tn ++ t2 ++ [.destroyCommandPool, .destroyDevice, .destroyInstance] := by
  cases hn : engineNew devs f with
  | mk tn rn =>
    cases rn with
    | error e =>
      rw [mainPipeline_of_new_error devs f tn e hn] at h
      simp at h
    | ok eng =>
      cases hr : engineRun f ⟨.initial, true⟩ with
      | mk t2 rs =>
        cases rs with
        | mk r2 s2 =>
          cases r2 with
          | error e =>
            rw [mainPipeline_of_run_error devs f tn t2 eng e s2 hn hr] at h
            simp at h
          | ok u =>
            cases u
            rw [mainPipeline_of_ok devs f tn t2 eng s2 hn hr] at h
            simp only [Prod.mk.injEq] at h
            exact ⟨tn, eng, t2, s2, rfl, rfl, h.1.symm⟩

theorem mainPipeline_error_inv (devs : List PhysicalDevice) (f : Faults)
    (t : List DriverCall) (e : EngineError)
    (h : mainPipeline devs f = (t, .error e)) :
    (engineNew devs f = (t, .error e)) ∨
    (∃ tn eng t2 s, engineNew devs f = (tn, .ok eng) ∧
      engineRun f ⟨.initial, true⟩ = (t2, .error e, s) ∧ t = tn ++ t2) := by
  cases hn : engineNew devs f with
  | mk tn rn =>
    cases rn with
    | error e2 =>
      rw [mainPipeline_of_new_error devs f tn e2 hn] at h
      simp only [Prod.mk.injEq, Except.error.injEq] at h
      exact Or.inl (by rw [h.1, h.2])
    | ok eng =>
      cases hr : engineRun f ⟨.initial, true⟩ with
      | mk t2 rs =>
        cases rs with
        | mk r2 s2 =>
          cases r2 with
          | error e2 =>
            rw [mainPipeline_of_run_error devs f tn t2 eng e2 s2 hn hr] at h
            simp only [Prod.mk.injEq, Except.error.injEq] at h
            exact Or.inr ⟨tn, eng, t2, s2, rfl, by rw [h.2], h.1.symm⟩
          | ok u =>
            cases u
            rw [mainPipeline_of_ok devs f tn t2 eng s2 hn hr] at h
            simp at h

/-! ### Claim theorems -/

/-- C1 (counterexample): injecting a failure at logical-device creation
on a one-device system makes the pipeline fail, after the instance was
created (one `createInstance` call in the trace), yet the instance is
destroyed zero times — not exactly once as the claim requires, because
`fn main` propagates the error with `?` and never calls `destroy`. -/
theorem engine_failure_teardown_cex :
    (mainPipeline [⟨0, .discreteGpu, [⟨7, 1⟩]⟩]
        { createDeviceFails := true }).2
      = .error (.vkError "vkCreateDevice") ∧
    (mainPipeline [⟨0, .discreteGpu, [⟨7, 1⟩]⟩]
        { createDeviceFails := true }).1.count
      (DriverCall.createInstance (1, 4)) = 1 ∧
    (mainPipeline [⟨0, .discreteGpu, [⟨7, 1⟩]⟩]
        { createDeviceFails := true }).1.count
      DriverCall.destroyInstance = 0 :=
  ⟨rfl, by decide, by decide⟩

/-- C1 (amended): on every failing run of the pipeline, no resource
after the failing step is ever created (the creation calls issued form
an initial segment of the full creation sequence), but no teardown runs
at all: the trace contains no destruction call whatsoever, so resources
created strictly before the failing step are leaked rather than
destroyed exactly once. -/
theorem engine_failure_no_teardown (devs : List PhysicalDevice) (f : Faults)
    (t : List DriverCall) (e : EngineError)
    (h : mainPipeline devs f = (t, .error e)) :
    t.filter isDestruction = [] ∧
    ∃ qf, t.filter isCreation <+:
      [.createInstance (1, 4), .createDevice [(qf, [1])],
       .createCommandPool qf, .allocateCommandBuffers 1] := by
  rcases mainPipeline_error_inv devs f t e h with
    hne | ⟨tn, eng, t2, s, hn, hr, ht⟩
  · exact engineNew_error devs f t e hne
  · obtain ⟨hsel, hqi, htn⟩ := engineNew_ok devs f tn eng hn
    have hrf := engineRun_filters f ⟨.initial, true⟩
    rw [hr] at hrf
    have h2c : t2.filter isCreation = [] := hrf.1
    have h2d : t2.filter isDestruction = [] := hrf.2
    subst ht htn
    constructor
    · rw [List.filter_append, h2d]
      rfl
    · exact ⟨eng.queueFamily, [], by rw [List.filter_append, h2c]; rfl⟩

/-- C1 (witness): the amended theorem applied to the concrete
device-creation failure. -/
theorem engine_failure_no_teardown_witness :
    ([DriverCall.load, .createInstance (1, 4), .enumerateDevices]
      : List DriverCall).filter isDestruction = [] ∧
    ∃ qf, ([DriverCall.load, .createInstance (1, 4), .enumerateDevices]
      : List DriverCall).filter isCreation <+:
      [.createInstance (1, 4), .createDevice [(qf, [1])],
       .createCommandPool qf, .allocateCommandBuffers 1] :=
  engine_failure_no_teardown [⟨0, .discreteGpu, [⟨7, 1⟩]⟩]
    { createDeviceFails := true } _ _ rfl

/-- C2: for every nonempty enumerated device list, the selected device
has minimum rank and every device enumerated before it has strictly
greater rank — so among devices of equal minimum rank (e.g. two
discrete GPUs) the first-enumerated one is selected, matching Rust's
`min_by_key`, which keeps the first of equally-minimal elements. -/
theorem device_rank_tie_first_enumerated (devs : List PhysicalDevice)
    (h : devs ≠ []) :
    ∃ d l₁ l₂, selectPhysicalDevice devs = some d ∧
      devs = l₁ ++ d :: l₂ ∧
      (∀ e ∈ devs, rankDevice d.deviceType ≤ rankDevice e.deviceType) ∧
      (∀ e ∈ l₁, rankDevice d.deviceType < rankDevice e.deviceType) :=
  selectPhysicalDevice_spec devs h

/-- C2 (witness): two discrete GPUs; the decomposition pins the selected
device as the first-enumerated of the two. -/
theorem device_rank_tie_first_enumerated_witness :
    ∃ d l₁ l₂, selectPhysicalDevice
        [(⟨0, .discreteGpu, []⟩ : PhysicalDevice), ⟨1, .discreteGpu, []⟩]
        = some d ∧
      [(⟨0, .discreteGpu, []⟩ : PhysicalDevice), ⟨1, .discreteGpu, []⟩]
        = l₁ ++ d :: l₂ ∧
      (∀ e ∈ [(⟨0, .discreteGpu, []⟩ : PhysicalDevice), ⟨1, .discreteGpu, []⟩],
        rankDevice d.deviceType ≤ rankDevice e.deviceType) ∧
      (∀ e ∈ l₁, rankDevice d.deviceType < rankDevice e.deviceType) :=
  device_rank_tie_first_enumerated _ (by decide)

/-- C3: the selected device is always of minimum rank under the order
discrete (0) < integrated (1) < other (3); in particular for a list
whose device types are a permutation of
[discrete, integrated, other], the discrete device is selected. -/
theorem device_selection_minimum_rank (devs : List PhysicalDevice)
    (h : devs ≠ []) :
    (∃ d, selectPhysicalDevice devs = some d ∧ d ∈ devs ∧
      ∀ e ∈ devs, rankDevice d.deviceType ≤ rankDevice e.deviceType) ∧
    ((devs.map PhysicalDevice.deviceType).Perm
        [.discreteGpu, .integratedGpu, .other] →
      ∃ d, selectPhysicalDevice devs = some d ∧
        d.deviceType = .discreteGpu) := by
  obtain ⟨d, l₁, l₂, hd, heq, hmin, hlt⟩ := selectPhysicalDevice_spec devs h
  have hmem : d ∈ devs := by
    rw [heq]; exact List.mem_append_right l₁ (List.mem_cons_self d l₂)
  refine ⟨⟨d, hd, hmem, hmin⟩, ?_⟩
  intro hperm
  refine ⟨d, hd, ?_⟩
  have hdisc : PhysicalDeviceType.discreteGpu ∈
      devs.map PhysicalDevice.deviceType := hperm.mem_iff.mpr (by simp)
  obtain ⟨ed, hed, hetype⟩ := List.mem_map.mp hdisc
  have h0 : rankDevice d.deviceType ≤ rankDevice ed.deviceType := hmin ed hed
  rw [hetype] at h0
  have hz : rankDevice PhysicalDeviceType.discreteGpu = 0 := rfl
  have h0' : rankDevice d.deviceType = 0 := by omega
  cases htd : d.deviceType with
  | discreteGpu => rfl
  | other => rw [htd] at h0'; exact absurd h0' (by decide)
  | integratedGpu => rw [htd] at h0'; exact absurd h0' (by decide)
  | virtualGpu => rw [htd] at h0'; exact absurd h0' (by decide)
  | cpu => rw [htd] at h0'; exact absurd h0' (by decide)

/-- C3 (witness): [integrated, discrete, other] — the discrete device
is selected. -/
theorem device_selection_minimum_rank_witness :
    ∃ d, selectPhysicalDevice
        [(⟨0, .integratedGpu, []⟩ : PhysicalDevice),
         ⟨1, .discreteGpu, []⟩, ⟨2, .other, []⟩] = some d ∧
      d.deviceType = .discreteGpu :=
  (device_selection_minimum_rank _ (by decide)).2 (by decide)

/-- C4: whenever selection succeeds, the chosen queue family index is
the position of the first family of the selected device whose flags
contain GRAPHICS|COMPUTE|TRANSFER: the family at that index qualifies
and every family listed before it does not (so a graphics+compute-only
family listed first is skipped). -/
theorem queue_family_first_qualifying (devs : List PhysicalDevice)
    (sel : QueueFamilySelection) (h : selectDeviceAndFamily devs = .ok sel) :
    selectPhysicalDevice devs = some sel.physicalDevice ∧
    ∃ fam, sel.physicalDevice.queueFamilies[sel.queueFamily]? = some fam ∧
      familyQualifies fam = true ∧
      ∀ fam' ∈ sel.physicalDevice.queueFamilies.take sel.queueFamily,
        familyQualifies fam' = false := by
  obtain ⟨h1, h2⟩ := selectDeviceAndFamily_ok devs sel h
  obtain ⟨fam, hf1, hf2, hf3⟩ := position_eq_some familyQualifies _ _ h2
  exact ⟨h1, fam, hf1, hf2, hf3⟩

/-- C4 (witness): a device whose first family has flags 3
(graphics+compute, no transfer) and second family flags 7: the chosen
index is 1; family 0 is skipped. -/
theorem queue_family_first_qualifying_witness :
    selectPhysicalDevice
        [(⟨0, .discreteGpu, [⟨3, 1⟩, ⟨7, 1⟩]⟩ : PhysicalDevice)]
      = some ⟨0, .discreteGpu, [⟨3, 1⟩, ⟨7, 1⟩]⟩ ∧
    ∃ fam, ([(⟨3, 1⟩ : QueueFamilyProperties), ⟨7, 1⟩])[(1 : Nat)]?
        = some fam ∧
      familyQualifies fam = true ∧
      ∀ fam' ∈ ([(⟨3, 1⟩ : QueueFamilyProperties), ⟨7, 1⟩]).take 1,
        familyQualifies fam' = false :=
  queue_family_first_qualifying _ ⟨⟨0, .discreteGpu, [⟨3, 1⟩, ⟨7, 1⟩]⟩, 1⟩ rfl

/-- C5: on every successful run of `fn main`, the resource-creation
calls issued are exactly instance, device, pool, buffer in that order,
and the destruction calls are exactly the reverse: command pool, then
device, then instance (the buffer is freed with its pool and is never
destroyed separately). -/
theorem success_creation_destruction_order (devs : List PhysicalDevice)
    (f : Faults) (t : List DriverCall)
    (h : mainPipeline devs f = (t, .ok ())) :
    ∃ qf, t.filter isCreation =
        [.createInstance (1, 4), .createDevice [(qf, [1])],
         .createCommandPool qf, .allocateCommandBuffers 1] ∧
      t.filter isDestruction =
        [.destroyCommandPool, .destroyDevice, .destroyInstance] := by
  obtain ⟨tn, eng, t2, s, hn, hr, ht⟩ := mainPipeline_ok_inv devs f t h
  obtain ⟨hsel, hqi, htn⟩ := engineNew_ok devs f tn eng hn
  obtain ⟨ht2, hs⟩ := engineRun_ok f ⟨.initial, true⟩ t2 () s hr
  subst ht htn ht2
  exact ⟨eng.queueFamily, rfl, rfl⟩

/-- C5 (witness): the fault-free run on a single discrete GPU. -/
theorem success_creation_destruction_order_witness :
    ∃ qf, ([DriverCall.load, .createInstance (1, 4), .enumerateDevices,
      .createDevice [(0, [1])], .getDeviceQueue 0 0,
      .createCommandPool 0, .allocateCommandBuffers 1,
      .beginCommandBuffer true, .endCommandBuffer,
      .queueSubmit2 0 0 1 true, .queueWaitIdle,
      .destroyCommandPool, .destroyDevice, .destroyInstance]
        : List DriverCall).filter isCreation =
        [.createInstance (1, 4), .createDevice [(qf, [1])],
         .createCommandPool qf, .allocateCommandBuffers 1] ∧
      ([DriverCall.load, .createInstance (1, 4), .enumerateDevices,
      .createDevice [(0, [1])], .getDeviceQueue 0 0,
      .createCommandPool 0, .allocateCommandBuffers 1,
      .beginCommandBuffer true, .endCommandBuffer,
      .queueSubmit2 0 0 1 true, .queueWaitIdle,
      .destroyCommandPool, .destroyDevice, .destroyInstance]
        : List DriverCall).filter isDestruction =
        [.destroyCommandPool, .destroyDevice, .destroyInstance] :=
  success_creation_destruction_order [⟨0, .discreteGpu, [⟨7, 1⟩]⟩] {} _ rfl

/-- C6: selection fails exactly when the enumerated list is empty or
the selected (minimum-rank) device has no family containing
GRAPHICS|COMPUTE|TRANSFER, and in both cases the error is one of the
two no-suitable-device messages produced by `ok_or(anyhow!(..))` —
never a loader or Vulkan-call error kind. -/
theorem selection_failure_iff (devs : List PhysicalDevice) :
    ((∃ e, selectDeviceAndFamily devs = .error e) ↔
      devs = [] ∨ ∃ d, selectPhysicalDevice devs = some d ∧
        ∀ fam ∈ d.queueFamilies, familyQualifies fam = false) ∧
    ∀ e, selectDeviceAndFamily devs = .error e →
      (e = .anyhowMsg "No physical devices available" ∨
       e = .anyhowMsg "No main queue available") :=
  selectDeviceAndFamily_error devs

/-- C6 (witness): the empty device list fails with a selection error. -/
theorem selection_failure_iff_witness :
    ∃ e, selectDeviceAndFamily ([] : List PhysicalDevice) = .error e :=
  (selection_failure_iff []).1.mpr (Or.inl rfl)

/-- C7: when the driver rejects nothing, `Engine::run` issues exactly
begin (with ONE_TIME_SUBMIT), the empty record step, end, one
`queue_submit2` with no wait/signal semaphores and a null fence, then
`queue_wait_idle`; it returns `Ok(())` and only after the queue-idle
wait completed (the returned driver state has the idle flag set). -/
theorem submit_once_spec (f : Faults) (s0 : RunState)
    (h1 : f.beginFails = false) (h2 : f.endFails = false)
    (h3 : f.submitFails = false) (h4 : f.waitIdleFails = false) :
    ∃ s, engineRun f s0 =
        ([.beginCommandBuffer true, .endCommandBuffer,
          .queueSubmit2 0 0 1 true, .queueWaitIdle], .ok (), s) ∧
      s.queueIdle = true :=
  ⟨⟨.pending, true⟩, engineRun_no_faults f s0 h1 h2 h3 h4, rfl⟩

/-- C7 (witness): the fault-free submit from the initial state. -/
theorem submit_once_spec_witness :
    ∃ s, engineRun {} ⟨.initial, true⟩ =
        ([.beginCommandBuffer true, .endCommandBuffer,
          .queueSubmit2 0 0 1 true, .queueWaitIdle], .ok (), s) ∧
      s.queueIdle = true :=
  submit_once_spec {} ⟨.initial, true⟩ rfl rfl rfl rfl

/-- C8: whenever `Engine::new` succeeds, the device-creation call
carries exactly one queue-creation request — for the selected family,
with the single priority list [1.0] — and is immediately followed by
retrieving the queue at index 0 of that family. -/
theorem device_single_queue_request (devs : List PhysicalDevice)
    (f : Faults) (t : List DriverCall) (eng : Engine)
    (h : engineNew devs f = (t, .ok eng)) :
    selectDeviceAndFamily devs = .ok ⟨eng.physicalDevice, eng.queueFamily⟩ ∧
    t = [.load, .createInstance (1, 4), .enumerateDevices,
         .createDevice [(eng.queueFamily, [1])],
         .getDeviceQueue eng.queueFamily 0,
         .createCommandPool eng.queueFamily,
         .allocateCommandBuffers 1] := by
  obtain ⟨h1, h2, h3⟩ := engineNew_ok devs f t eng h
  exact ⟨h1, h3⟩

/-- C8 (witness): the fault-free `Engine::new` on one discrete GPU. -/
theorem device_single_queue_request_witness :
    selectDeviceAndFamily [(⟨0, .discreteGpu, [⟨7, 1⟩]⟩ : PhysicalDevice)]
      = .ok ⟨⟨0, .discreteGpu, [⟨7, 1⟩]⟩, 0⟩ ∧
    ([DriverCall.load, .createInstance (1, 4), .enumerateDevices,
      .createDevice [(0, [1])], .getDeviceQueue 0 0,
      .createCommandPool 0, .allocateCommandBuffers 1]
        : List DriverCall) =
      [.load, .createInstance (1, 4), .enumerateDevices,
       .createDevice [(0, [1])], .getDeviceQueue 0 0,
       .createCommandPool 0, .allocateCommandBuffers 1] :=
  device_single_queue_request [⟨0, .discreteGpu, [⟨7, 1⟩]⟩] {} _
    ⟨⟨0, .discreteGpu, [⟨7, 1⟩]⟩, 0, 0⟩ rfl

/-- C9: device/family selection is a pure function of the enumerated
device list: two runs over equal lists yield the same selection. -/
theorem device_selection_deterministic (devs1 devs2 : List PhysicalDevice)
    (h : devs1 = devs2) :
    selectDeviceAndFamily devs1 = selectDeviceAndFamily devs2 := by
  rw [h]

/-- C9 (witness): determinism at a concrete list. -/
theorem device_selection_deterministic_witness :
    selectDeviceAndFamily [(⟨0, .discreteGpu, [⟨7, 1⟩]⟩ : PhysicalDevice)]
      = selectDeviceAndFamily [⟨0, .discreteGpu, [⟨7, 1⟩]⟩] :=
  device_selection_deterministic _ _ rfl

/-- C10: the `destroy` of each of the three variants issues only the
destruction calls and always returns `Ok(())` — none of the underlying
destruction entry points can fail, even though the signature permits
an error. -/
theorem destroy_infallible (e : Engine) (edq : EngineDQ) (c : Context) :
    (engineDestroy e).2 = .ok () ∧ (engineDQDestroy edq).2 = .ok () ∧
    (contextDestroy c).2 = .ok () :=
  ⟨rfl, rfl, rfl⟩
